import Mathlib

/-!
# Verification of a segregated-list malloc implementation

Shallow embedding of `src/mm.c` (a CS:APP malloc-lab allocator using a
20-bucket segregated free list) and proofs about it.

Modelling conventions:
* The heap is a word-granular memory `Mem : Nat → Nat`: addresses are byte
  addresses, and every read/write in the C source is a 4-byte `unsigned int`
  access at a 4-aligned address.  Stored words are truncated modulo `2 ^ 32`,
  matching the 32-bit `unsigned int` stores of the source.
* Pointers are byte addresses (`Nat`); the C `NULL` is `0`.
* Loops that walk in-memory linked lists take an explicit fuel argument and
  return `none` when the fuel runs out; `none` never corresponds to a C
  result, only to non-termination not resolved by the given fuel.
* `size_t` arithmetic is 32-bit in the source build (pointers are cast to
  `unsigned int`), so `ALIGN` truncates modulo `2 ^ 32` exactly where the C
  macro wraps.  The subtraction `ptr_size - asize` in `place` is modelled with
  truncated `Nat` subtraction; all uses have `asize ≤ ptr_size`.
-/

namespace MM

/-- Word-granular heap memory: byte address to stored 32-bit word. -/
def Mem : Type := Nat → Nat

/-- `WSIZE`: word and header/footer size (bytes). -/
def WSIZE : Nat := 4

/-- `DSIZE`: double word size (bytes). -/
def DSIZE : Nat := 8

/-- `INITCHUNKSIZE = 1<<6`. -/
def INITCHUNKSIZE : Nat := 64

/-- `CHUNKSIZE = 1<<12`. -/
def CHUNKSIZE : Nat := 4096

/-- `LISTLIMIT`: number of segregated-list buckets. -/
def LISTLIMIT : Nat := 20

/-- `REALLOC_BUFFER = 1<<7`. -/
def REALLOC_BUFFER : Nat := 128

/-- `ALIGN(size) = ((size) + 7) & ~0x7` on 32-bit `size_t`. -/
def ALIGN (size : Nat) : Nat := ((size + 7) % 2 ^ 32) &&& 0xFFFFFFF8

/-- `PACK(size, alloc) = (size) | (alloc)`. -/
def PACK (size alloc : Nat) : Nat := size ||| alloc

/-- `GET(p)`: read the word at address `p`. -/
def GET (m : Mem) (p : Nat) : Nat := m p

/-- `PUT_NOTAG(p, val)`: store `val` at `p` (32-bit store). -/
def PUT_NOTAG (m : Mem) (p v : Nat) : Mem :=
  fun a => if a = p then v % 2 ^ 32 else m a

/-- `SET_PTR(p, ptr)`: store a pointer value at `p` (32-bit store). -/
def SET_PTR (m : Mem) (p v : Nat) : Mem :=
  fun a => if a = p then v % 2 ^ 32 else m a

/-- `GET_SIZE(p) = GET(p) & ~0x7` (mask is `0xFFFFFFF8` on 32 bits). -/
def GET_SIZE (m : Mem) (p : Nat) : Nat := GET m p &&& 0xFFFFFFF8

/-- `GET_ALLOC(p) = GET(p) & 0x1`. -/
def GET_ALLOC (m : Mem) (p : Nat) : Nat := GET m p &&& 0x1

/-- `GET_TAG(p) = GET(p) & 0x2` (reallocation tag; the tag set/clear sites in
the source are commented out, so no live code path writes it). -/
def GET_TAG (m : Mem) (p : Nat) : Nat := GET m p &&& 0x2

/-- `PUT(p, val)`: tag-preserving store `*(p) = val | GET_TAG(p)`.  Defined by
the source but unused by any live code path (all live writes are
`PUT_NOTAG`/`SET_PTR`). -/
def PUT (m : Mem) (p v : Nat) : Mem :=
  fun a => if a = p then (v ||| GET_TAG m p) % 2 ^ 32 else m a

/-- `HDRP(ptr) = ptr - WSIZE`. -/
def HDRP (ptr : Nat) : Nat := ptr - WSIZE

/-- `FTRP(ptr) = ptr + GET_SIZE(HDRP(ptr)) - DSIZE`. -/
def FTRP (m : Mem) (ptr : Nat) : Nat := ptr + GET_SIZE m (HDRP ptr) - DSIZE

/-- `NEXT_BLKP(ptr) = ptr + GET_SIZE(ptr - WSIZE)`. -/
def NEXT_BLKP (m : Mem) (ptr : Nat) : Nat := ptr + GET_SIZE m (ptr - WSIZE)

/-- `PREV_BLKP(ptr) = ptr - GET_SIZE(ptr - DSIZE)`. -/
def PREV_BLKP (m : Mem) (ptr : Nat) : Nat := ptr - GET_SIZE m (ptr - DSIZE)

/-- `PRED_PTR(ptr) = ptr`: address of the predecessor field of a free block. -/
def PRED_PTR (ptr : Nat) : Nat := ptr

/-- `SUCC_PTR(ptr) = ptr + WSIZE`: address of the successor field of a free block. -/
def SUCC_PTR (ptr : Nat) : Nat := ptr + WSIZE

/-- `PRED(ptr)`: the stored predecessor pointer of free block `ptr`. -/
def PRED (m : Mem) (ptr : Nat) : Nat := GET m (PRED_PTR ptr)

/-- `SUCC(ptr)`: the stored successor pointer of free block `ptr`. -/
def SUCC (m : Mem) (ptr : Nat) : Nat := GET m (SUCC_PTR ptr)

/-- Global allocator state: the heap words, the 20 bucket heads
`segregated_free_lists`, the current break `brk`, and the capacity `limit` of
the `mem_sbrk` arena. -/
structure St where
  mem : Mem
  segregated_free_lists : Nat → Nat
  brk : Nat
  limit : Nat

/-- Store a word into the heap of a state. -/
def putNoTag (s : St) (p v : Nat) : St := { s with mem := PUT_NOTAG s.mem p v }

/-- Store a pointer word into the heap of a state. -/
def setPtr (s : St) (p v : Nat) : St := { s with mem := SET_PTR s.mem p v }

/-- Update one bucket head of `segregated_free_lists`. -/
def setSegList (s : St) (k p : Nat) : St :=
  { s with segregated_free_lists := fun i => if i = k then p else s.segregated_free_lists i }

/-- `mem_sbrk(n)`: extend the heap by `n` bytes, returning the old break, or
`none` (C: `(void * ) -1`) when the arena is exhausted. -/
def mem_sbrk (s : St) (n : Nat) : Option (Nat × St) :=
  if s.brk + n ≤ s.limit then some (s.brk, { s with brk := s.brk + n }) else none

/-- Body of the bucket-selection loop, structurally recursive on the
count `LISTLIMIT - 1 - list` of remaining iterations permitted by the
condition `list < LISTLIMIT - 1` (the counter hits `0` exactly when that
condition goes false). -/
def selectLoopAux : Nat → Nat → Nat → Nat × Nat
  | 0, list, size => (list, size)
  | n + 1, list, size =>
    if 1 < size then selectLoopAux n (list + 1) (size >>> 1) else (list, size)

/-- The bucket-selection loop shared verbatim by `insert_node` and
`delete_node`: `while ((list < LISTLIMIT - 1) && (size > 1)) { size >>= 1;
list++; }`.  Returns the final `(list, size)` pair; note that the *shifted*
`size` is what `insert_node` later compares against block sizes. -/
def selectLoop (list size : Nat) : Nat × Nat :=
  selectLoopAux (LISTLIMIT - 1 - list) list size

/-- The search walk of `insert_node`:
`while ((search_ptr != NULL) && (size > GET_SIZE(HDRP(search_ptr)))) {
insert_ptr = search_ptr; search_ptr = PRED(search_ptr); }`.
Returns the final `(search_ptr, insert_ptr)`. -/
def insertWalk (m : Mem) (size : Nat) : Nat → Nat → Nat → Option (Nat × Nat)
  | fuel, search_ptr, insert_ptr =>
    if search_ptr ≠ 0 ∧ GET_SIZE m (HDRP search_ptr) < size then
      match fuel with
      | 0 => none
      | fuel + 1 => insertWalk m size fuel (PRED m search_ptr) search_ptr
    else some (search_ptr, insert_ptr)

/-- `insert_node(ptr, size)`: insert free block `ptr` into its bucket. -/
def insert_node (fuel : Nat) (s : St) (ptr size : Nat) : Option St :=
  let ls := selectLoop 0 size
  let list := ls.1
  let sz := ls.2
  match insertWalk s.mem sz fuel (s.segregated_free_lists list) 0 with
  | none => none
  | some (search_ptr, insert_ptr) =>
    if search_ptr ≠ 0 then
      if insert_ptr ≠ 0 then
        some (setPtr (setPtr (setPtr (setPtr s (PRED_PTR ptr) search_ptr)
          (SUCC_PTR search_ptr) ptr) (SUCC_PTR ptr) insert_ptr) (PRED_PTR insert_ptr) ptr)
      else
        some (setSegList (setPtr (setPtr (setPtr s (PRED_PTR ptr) search_ptr)
          (SUCC_PTR search_ptr) ptr) (SUCC_PTR ptr) 0) list ptr)
    else
      if insert_ptr ≠ 0 then
        some (setPtr (setPtr (setPtr s (PRED_PTR ptr) 0)
          (SUCC_PTR ptr) insert_ptr) (PRED_PTR insert_ptr) ptr)
      else
        some (setSegList (setPtr (setPtr s (PRED_PTR ptr) 0) (SUCC_PTR ptr) 0) list ptr)

/-- `delete_node(ptr)`: unlink free block `ptr` from its bucket.  Each
`SET_PTR` argument re-reads memory at its own program point, so the state is
threaded between the two stores of the first case. -/
def delete_node (s : St) (ptr : Nat) : St :=
  let size := GET_SIZE s.mem (HDRP ptr)
  let list := (selectLoop 0 size).1
  if PRED s.mem ptr ≠ 0 then
    if SUCC s.mem ptr ≠ 0 then
      let s1 := setPtr s (SUCC_PTR (PRED s.mem ptr)) (SUCC s.mem ptr)
      setPtr s1 (PRED_PTR (SUCC s1.mem ptr)) (PRED s1.mem ptr)
    else
      let s1 := setPtr s (SUCC_PTR (PRED s.mem ptr)) 0
      setSegList s1 list (PRED s1.mem ptr)
  else
    if SUCC s.mem ptr ≠ 0 then
      setPtr s (PRED_PTR (SUCC s.mem ptr)) 0
    else
      setSegList s list 0

/-- `coalesce(ptr)`: merge the free block `ptr` with free physical
neighbours; the reallocation-tag guard on the previous block is commented out
in the source.  Returns the payload pointer of the merged block. -/
def coalesce (fuel : Nat) (s : St) (ptr : Nat) : Option (Nat × St) :=
  let prev_alloc := GET_ALLOC s.mem (HDRP (PREV_BLKP s.mem ptr))
  let next_alloc := GET_ALLOC s.mem (HDRP (NEXT_BLKP s.mem ptr))
  let size := GET_SIZE s.mem (HDRP ptr)
  if prev_alloc ≠ 0 ∧ next_alloc ≠ 0 then
    some (ptr, s)
  else if prev_alloc ≠ 0 ∧ next_alloc = 0 then
    let s1 := delete_node s ptr
    let s2 := delete_node s1 (NEXT_BLKP s1.mem ptr)
    let size2 := size + GET_SIZE s2.mem (HDRP (NEXT_BLKP s2.mem ptr))
    let s3 := putNoTag s2 (HDRP ptr) (PACK size2 0)
    let s4 := putNoTag s3 (FTRP s3.mem ptr) (PACK size2 0)
    match insert_node fuel s4 ptr size2 with
    | none => none
    | some s5 => some (ptr, s5)
  else if prev_alloc = 0 ∧ next_alloc ≠ 0 then
    let s1 := delete_node s ptr
    let s2 := delete_node s1 (PREV_BLKP s1.mem ptr)
    let size2 := size + GET_SIZE s2.mem (HDRP (PREV_BLKP s2.mem ptr))
    let s3 := putNoTag s2 (FTRP s2.mem ptr) (PACK size2 0)
    let s4 := putNoTag s3 (HDRP (PREV_BLKP s3.mem ptr)) (PACK size2 0)
    let ptr2 := PREV_BLKP s4.mem ptr
    match insert_node fuel s4 ptr2 size2 with
    | none => none
    | some s5 => some (ptr2, s5)
  else
    let s1 := delete_node s ptr
    let s2 := delete_node s1 (PREV_BLKP s1.mem ptr)
    let s3 := delete_node s2 (NEXT_BLKP s2.mem ptr)
    let size2 := size + GET_SIZE s3.mem (HDRP (PREV_BLKP s3.mem ptr))
      + GET_SIZE s3.mem (HDRP (NEXT_BLKP s3.mem ptr))
    let s4 := putNoTag s3 (HDRP (PREV_BLKP s3.mem ptr)) (PACK size2 0)
    let s5 := putNoTag s4 (FTRP s4.mem (NEXT_BLKP s4.mem ptr)) (PACK size2 0)
    let ptr2 := PREV_BLKP s5.mem ptr
    match insert_node fuel s5 ptr2 size2 with
    | none => none
    | some s6 => some (ptr2, s6)

/-- `place(ptr, asize)`: take free block `ptr` out of the index and carve an
`asize`-byte allocated block out of it, splitting when the remainder exceeds
`2 * DSIZE`; requests of at least 73 bytes put the free remainder at the low
address.  Returns the allocated payload pointer. -/
def place (fuel : Nat) (s : St) (ptr asize : Nat) : Option (Nat × St) :=
  let ptr_size := GET_SIZE s.mem (HDRP ptr)
  let remainder := ptr_size - asize
  let s1 := delete_node s ptr
  if remainder ≤ DSIZE * 2 then
    let s2 := putNoTag s1 (HDRP ptr) (PACK ptr_size 1)
    let s3 := putNoTag s2 (FTRP s2.mem ptr) (PACK ptr_size 1)
    some (ptr, s3)
  else if 73 ≤ asize then
    let s2 := putNoTag s1 (HDRP ptr) (PACK remainder 0)
    let s3 := putNoTag s2 (FTRP s2.mem ptr) (PACK remainder 0)
    let s4 := putNoTag s3 (HDRP (NEXT_BLKP s3.mem ptr)) (PACK asize 1)
    let s5 := putNoTag s4 (FTRP s4.mem (NEXT_BLKP s4.mem ptr)) (PACK asize 1)
    match insert_node fuel s5 ptr remainder with
    | none => none
    | some s6 => some (NEXT_BLKP s6.mem ptr, s6)
  else
    let s2 := putNoTag s1 (HDRP ptr) (PACK asize 1)
    let s3 := putNoTag s2 (FTRP s2.mem ptr) (PACK asize 1)
    let s4 := putNoTag s3 (HDRP (NEXT_BLKP s3.mem ptr)) (PACK remainder 0)
    let s5 := putNoTag s4 (FTRP s4.mem (NEXT_BLKP s4.mem ptr)) (PACK remainder 0)
    match insert_node fuel s5 (NEXT_BLKP s5.mem ptr) remainder with
    | none => none
    | some s6 => some (ptr, s6)

/-- `extend_heap(size)`: grow the heap, lay out the new free block over the
old epilogue, write a fresh epilogue, index the block and coalesce it.
Returns `(0, s)` (C: `NULL`) when `mem_sbrk` fails. -/
def extend_heap (fuel : Nat) (s : St) (size : Nat) : Option (Nat × St) :=
  let asize := ALIGN size
  match mem_sbrk s asize with
  | none => some (0, s)
  | some (ptr, s1) =>
    let s2 := putNoTag s1 (HDRP ptr) (PACK asize 0)
    let s3 := putNoTag s2 (FTRP s2.mem ptr) (PACK asize 0)
    let s4 := putNoTag s3 (HDRP (NEXT_BLKP s3.mem ptr)) (PACK 0 1)
    match insert_node fuel s4 ptr asize with
    | none => none
    | some s5 => coalesce fuel s5 ptr

/-- `mm_init()`: clear the bucket heads, lay out padding, prologue and
epilogue, and extend by the initial chunk.  Returns `-1` on failure. -/
def mm_init (fuel : Nat) (s : St) : Option (Int × St) :=
  let s0 : St := { s with segregated_free_lists := fun _ => 0 }
  match mem_sbrk s0 (4 * WSIZE) with
  | none => some (-1, s0)
  | some (heap_start, s1) =>
    let s2 := putNoTag s1 heap_start 0
    let s3 := putNoTag s2 (heap_start + 1 * WSIZE) (PACK DSIZE 1)
    let s4 := putNoTag s3 (heap_start + 2 * WSIZE) (PACK DSIZE 1)
    let s5 := putNoTag s4 (heap_start + 3 * WSIZE) (PACK 0 1)
    match extend_heap fuel s5 INITCHUNKSIZE with
    | none => none
    | some (p, s6) => if p = 0 then some (-1, s6) else some (0, s6)

/-- The inner search walk of `mm_malloc`:
`while ((ptr != NULL) && (asize > GET_SIZE(HDRP(ptr)))) { ptr = PRED(ptr); }`. -/
def findInList (m : Mem) (asize : Nat) : Nat → Nat → Option Nat
  | fuel, ptr =>
    if ptr ≠ 0 ∧ GET_SIZE m (HDRP ptr) < asize then
      match fuel with
      | 0 => none
      | fuel + 1 => findInList m asize fuel (PRED m ptr)
    else some ptr

/-- Body of the outer bucket scan, structurally recursive on the count
`LISTLIMIT - list` of remaining iterations permitted by the condition
`list < LISTLIMIT` (the counter hits `0` exactly when that condition goes
false, where the C loop exits with `ptr == NULL`). -/
def searchLoopAux (s : St) (asize fuel : Nat) : Nat → Nat → Nat → Option Nat
  | 0, _, _ => some 0
  | n + 1, list, searchsize =>
    if list = LISTLIMIT - 1 ∨ (searchsize ≤ 1 ∧ s.segregated_free_lists list ≠ 0) then
      match findInList s.mem asize fuel (s.segregated_free_lists list) with
      | none => none
      | some p =>
        if p ≠ 0 then some p
        else searchLoopAux s asize fuel n (list + 1) (searchsize >>> 1)
    else searchLoopAux s asize fuel n (list + 1) (searchsize >>> 1)

/-- The outer bucket scan of `mm_malloc`; returns the found block or `0`. -/
def searchLoop (s : St) (asize fuel list searchsize : Nat) : Option Nat :=
  searchLoopAux s asize fuel (LISTLIMIT - list) list searchsize

/-- `mm_malloc(size)`: compute the adjusted size, search the segregated
index, extend the heap on a miss, then `place`. -/
def mm_malloc (fuel : Nat) (s : St) (size : Nat) : Option (Nat × St) :=
  if size = 0 then some (0, s)
  else
    let asize := if size ≤ DSIZE then 2 * DSIZE else ALIGN (size + DSIZE)
    match searchLoop s asize fuel 0 asize with
    | none => none
    | some p =>
      if p = 0 then
        let extendsize := max asize CHUNKSIZE
        match extend_heap fuel s extendsize with
        | none => none
        | some (q, s1) => if q = 0 then some (0, s1) else place fuel s1 q asize
      else place fuel s p asize

/-- `mm_free(ptr)`: mark the block free, index it, coalesce. -/
def mm_free (fuel : Nat) (s : St) (ptr : Nat) : Option St :=
  let size := GET_SIZE s.mem (HDRP ptr)
  let s1 := putNoTag s (HDRP ptr) (PACK size 0)
  let s2 := putNoTag s1 (FTRP s1.mem ptr) (PACK size 0)
  match insert_node fuel s2 ptr size with
  | none => none
  | some s3 =>
    match coalesce fuel s3 ptr with
    | none => none
    | some (_, s4) => some s4

/-- The byte stored at byte address `b` (little-endian within each word). -/
def byteAt (m : Mem) (b : Nat) : Nat :=
  (GET m (b / 4 * 4) >>> (8 * (b % 4))) &&& 0xFF

/-- Store one byte at byte address `b`, read-modify-write on its word. -/
def writeByte (m : Mem) (b v : Nat) : Mem :=
  let w := b / 4 * 4
  let sh := 8 * (b % 4)
  PUT_NOTAG m w ((GET m w &&& (0xFFFFFFFF ^^^ (0xFF <<< sh))) ||| ((v &&& 0xFF) <<< sh))

/-- `memcpy(dst, src, n)` at byte granularity; source bytes are taken from
the original memory (the C call is only ever used on disjoint regions). -/
def memcpyBytes (m : Mem) (dst src : Nat) : Nat → Mem
  | 0 => m
  | n + 1 => writeByte (memcpyBytes m dst src n) (dst + n) (byteAt m (src + n))

/-- The in-place absorption arm of `mm_realloc` (next block free or the
epilogue): optionally extend the heap, unlink the absorbed next block, and
rewrite the enlarged header/footer without splitting.  `remainder0` is the
`int remainder` before the optional extension. -/
def reallocFinish (s : St) (ptr new_size : Nat) (remainder : Int) : Option (Nat × St) :=
  let s1 := delete_node s (NEXT_BLKP s.mem ptr)
  let v := ((new_size : Int) + remainder).toNat
  let s2 := putNoTag s1 (HDRP ptr) (PACK v 1)
  let s3 := putNoTag s2 (FTRP s2.mem ptr) (PACK v 1)
  some (ptr, s3)

/-- Lines 553-564 of the source: extend if the combined size still falls
short, then absorb the next block. -/
def reallocAbsorb (fuel : Nat) (s : St) (ptr new_size : Nat) (remainder0 : Int) :
    Option (Nat × St) :=
  if remainder0 < 0 then
    let extendsize : Int := max (-remainder0) (CHUNKSIZE : Int)
    match extend_heap fuel s extendsize.toNat with
    | none => none
    | some (q, s1) =>
      if q = 0 then some (0, s1)
      else reallocFinish s1 ptr new_size (remainder0 + extendsize)
  else reallocFinish s ptr new_size remainder0

/-- The relocation arm of `mm_realloc`: allocate fresh, copy
`MIN(size, new_size)` bytes, free the old block. -/
def reallocCopy (fuel : Nat) (s : St) (ptr size new_size : Nat) : Option (Nat × St) :=
  match mm_malloc fuel s (new_size - DSIZE) with
  | none => none
  | some (new_ptr, s1) =>
    let s2 : St := { s1 with mem := memcpyBytes s1.mem new_ptr ptr (min size new_size) }
    match mm_free fuel s2 ptr with
    | none => none
    | some s3 => some (new_ptr, s3)

/-- `mm_realloc(ptr, size)`: return `NULL` for `size == 0`; return `ptr`
unchanged when the block already holds the adjusted size plus the 128-byte
buffer; otherwise absorb a free/epilogue successor in place or relocate. -/
def mm_realloc (fuel : Nat) (s : St) (ptr size : Nat) : Option (Nat × St) :=
  if size = 0 then some (0, s)
  else
    let new_size := (if size ≤ DSIZE then 2 * DSIZE else ALIGN (size + DSIZE)) + REALLOC_BUFFER
    let block_buffer : Int := (GET_SIZE s.mem (HDRP ptr) : Int) - (new_size : Int)
    if block_buffer < 0 then
      if GET_ALLOC s.mem (HDRP (NEXT_BLKP s.mem ptr)) = 0 ∨
          GET_SIZE s.mem (HDRP (NEXT_BLKP s.mem ptr)) = 0 then
        let remainder0 : Int := (GET_SIZE s.mem (HDRP ptr) : Int) +
          (GET_SIZE s.mem (HDRP (NEXT_BLKP s.mem ptr)) : Int) - (new_size : Int)
        reallocAbsorb fuel s ptr new_size remainder0
      else reallocCopy fuel s ptr size new_size
    else some (ptr, s)

/-! ## Concrete fixture states used by witnesses and counterexamples -/

/-- A heap holding one free block at payload `16` of size `72`
(header at `12`, footer at `80`), with all bucket heads empty. -/
def stBlock72 : St :=
  { mem := fun a => if a = 12 then 72 else if a = 80 then 72 else 0
    segregated_free_lists := fun _ => 0
    brk := 96, limit := 1000 }

/-- A heap holding one free block at payload `16` of size `104`
(header at `12`, footer at `112`), with all bucket heads empty. -/
def stBlock104 : St :=
  { mem := fun a => if a = 12 then 104 else if a = 112 then 104 else 0
    segregated_free_lists := fun _ => 0
    brk := 128, limit := 1000 }

/-- A heap whose bucket `4` holds the single free block `32` of size `16`,
with a size-`24` header prepared for the unlisted block `64`. -/
def stBucket16 : St :=
  { mem := fun a => if a = 28 then 16 else if a = 60 then 24 else 0
    segregated_free_lists := fun k => if k = 4 then 32 else 0
    brk := 0, limit := 0 }

/-- A heap holding one allocated block at payload `16` of size `160`
(header word `161`). -/
def stRealloc160 : St :=
  { mem := fun a => if a = 12 then 161 else 0
    segregated_free_lists := fun _ => 0
    brk := 0, limit := 0 }

/-! ## Free-list chain predicates (specification vocabulary) -/

/-- `chainLinks m p l`: starting from pointer `p`, following `PRED` links
visits exactly the (nonzero) nodes of `l` and ends at `NULL`. -/
def chainLinks (m : Mem) : Nat → List Nat → Prop
  | p, [] => p = 0
  | p, q :: rest => p = q ∧ q ≠ 0 ∧ chainLinks m (PRED m q) rest

/-- `succOk m above l`: the `SUCC` back-links of the chain `l` are
consistent, the node above the head of `l` being `above` (`none` at the
bucket head, whose `SUCC` must be `NULL`). -/
def succOk (m : Mem) : Option Nat → List Nat → Prop
  | _, [] => True
  | above, q :: rest => SUCC m q = above.getD 0 ∧ succOk m (some q) rest

/-- Cell-level disjointness between the link fields of listed nodes and the
link/header cells of a block `ptr`, plus node-node cell disjointness and
32-bit representability; these facts hold in any well-formed heap because
distinct blocks occupy disjoint address ranges. -/
def cellsOk (ptr : Nat) (l : List Nat) : Prop :=
  (∀ q ∈ l, q ∉ ([ptr - 4, ptr, ptr + 4] : List Nat) ∧
    q + 4 ∉ ([ptr - 4, ptr, ptr + 4] : List Nat) ∧ q < 2 ^ 32) ∧
  l.Pairwise (fun a b => a ≠ b + 4 ∧ b ≠ a + 4)

/-! ## Helper lemmas about the block encoding -/

theorem land_mask (v : Nat) : v &&& 0xFFFFFFF8 = v % 2 ^ 32 / 8 * 8 := by
  apply Nat.eq_of_testBit_eq
  intro i
  have hm : (0xFFFFFFF8 : Nat) = (2 ^ 29 - 1) <<< 3 := by norm_num [Nat.shiftLeft_eq]
  have hv : v % 2 ^ 32 / 8 * 8 = ((v % 2 ^ 32) >>> 3) <<< 3 := by
    simp [Nat.shiftLeft_eq, Nat.shiftRight_eq_div_pow]
  rw [Nat.testBit_land, hm, Nat.testBit_shiftLeft, Nat.testBit_two_pow_sub_one, hv,
    Nat.testBit_shiftLeft, Nat.testBit_shiftRight, Nat.testBit_mod_two_pow]
  by_cases h3 : 3 ≤ i
  · by_cases h32 : i < 32
    · have h : 3 + (i - 3) = i := by omega
      simp [ge_iff_le, h3, h32, h]
      try exact fun _ => by omega
    · simp [ge_iff_le, h3, h32]
      try exact fun _ => by omega
  · simp [ge_iff_le, h3]
    try omega

theorem GET_SIZE_eq (m : Mem) (p : Nat) : GET_SIZE m p = GET m p % 2 ^ 32 / 8 * 8 := by
  rw [GET_SIZE, land_mask]

theorem GET_ALLOC_eq (m : Mem) (p : Nat) : GET_ALLOC m p = GET m p % 2 := by
  rw [GET_ALLOC, Nat.and_one_is_mod]

theorem GET_SIZE_mod8 (m : Mem) (p : Nat) : GET_SIZE m p % 8 = 0 := by
  rw [GET_SIZE_eq]; omega

theorem GET_SIZE_lt (m : Mem) (p : Nat) : GET_SIZE m p < 2 ^ 32 := by
  rw [GET_SIZE_eq]
  have h := Nat.mod_lt (GET m p) (show 0 < 2 ^ 32 by norm_num)
  omega

theorem lor_small {s a : Nat} (h8 : s % 8 = 0) (ha : a < 8) : s ||| a = s + a := by
  obtain ⟨k, rfl⟩ : ∃ k, s = 2 ^ 3 * k := ⟨s / 8, by omega⟩
  apply Nat.eq_of_testBit_eq
  intro j
  rw [Nat.testBit_lor, Nat.testBit_mul_pow_two_add k (by simpa using ha) j]
  have hs : (2 ^ 3 * k).testBit j = if j < 3 then false else k.testBit (j - 3) := by
    simpa using Nat.testBit_mul_pow_two_add k (show (0 : Nat) < 2 ^ 3 by norm_num) j
  rw [hs]
  by_cases hj : j < 3
  · simp [hj]
  · have hj8 : (8 : Nat) ≤ 2 ^ j := by
      calc (8 : Nat) = 2 ^ 3 := by norm_num
        _ ≤ 2 ^ j := Nat.pow_le_pow_right (by norm_num) (by omega)
    have ha' : a.testBit j = false := Nat.testBit_lt_two_pow (by omega)
    simp [hj, ha']

theorem PACK_eq {s a : Nat} (h8 : s % 8 = 0) (ha : a < 8) : PACK s a = s + a := by
  rw [PACK, lor_small h8 ha]

theorem GET_PUT_NOTAG_same (m : Mem) (p v : Nat) : GET (PUT_NOTAG m p v) p = v % 2 ^ 32 := by
  simp [GET, PUT_NOTAG]

theorem GET_PUT_NOTAG_ne (m : Mem) (p v a : Nat) (h : a ≠ p) :
    GET (PUT_NOTAG m p v) a = GET m a := by
  simp [GET, PUT_NOTAG, h]

theorem GET_SET_PTR_same (m : Mem) (p v : Nat) : GET (SET_PTR m p v) p = v % 2 ^ 32 := by
  simp [GET, SET_PTR]

theorem GET_SET_PTR_ne (m : Mem) (p v a : Nat) (h : a ≠ p) :
    GET (SET_PTR m p v) a = GET m a := by
  simp [GET, SET_PTR, h]

/-! ## The bucket-selection loop -/

theorem selectLoopAux_fst : ∀ n list s : Nat, list + n = 19 →
    (selectLoopAux n list s).1 = min 19 (list + Nat.log2 s) := by
  intro n
  induction n with
  | zero =>
    intro list s h
    rw [selectLoopAux]
    omega
  | succ n ih =>
    intro list s h
    rw [selectLoopAux]
    by_cases h2 : 1 < s
    · have hlog : Nat.log2 s = Nat.log2 (s >>> 1) + 1 := by
        conv_lhs => rw [Nat.log2]
        rw [if_pos (by omega : s ≥ 2), Nat.shiftRight_one]
      rw [if_pos h2, ih (list + 1) (s >>> 1) (by omega), hlog]
      omega
    · rw [if_neg h2, Nat.log2, if_neg (by omega : ¬(s ≥ 2))]
      omega

theorem selectLoop_fst (s list : Nat) (hl : list ≤ 19) :
    (selectLoop list s).1 = min 19 (list + Nat.log2 s) := by
  rw [selectLoop]
  have hL : LISTLIMIT - 1 - list = 19 - list := by simp [LISTLIMIT]
  rw [hL]
  exact selectLoopAux_fst (19 - list) list s (by omega)

theorem putNoTag_mem (s : St) (p v : Nat) : (putNoTag s p v).mem = PUT_NOTAG s.mem p v := rfl

theorem setPtr_mem (s : St) (p v : Nat) : (setPtr s p v).mem = SET_PTR s.mem p v := rfl

theorem setSegList_mem (s : St) (k p : Nat) : (setSegList s k p).mem = s.mem := rfl

theorem putNoTag_lists (s : St) (p v : Nat) :
    (putNoTag s p v).segregated_free_lists = s.segregated_free_lists := rfl

theorem setPtr_lists (s : St) (p v : Nat) :
    (setPtr s p v).segregated_free_lists = s.segregated_free_lists := rfl

theorem setSegList_lists (s : St) (k p i : Nat) :
    (setSegList s k p).segregated_free_lists i =
      if i = k then p else s.segregated_free_lists i := rfl

theorem GET_putNoTag_same (s : St) (p v : Nat) :
    GET (putNoTag s p v).mem p = v % 2 ^ 32 := GET_PUT_NOTAG_same _ _ _

theorem GET_putNoTag_ne (s : St) (p v a : Nat) (h : a ≠ p) :
    GET (putNoTag s p v).mem a = GET s.mem a := GET_PUT_NOTAG_ne _ _ _ _ h

theorem GET_setPtr_same (s : St) (p v : Nat) :
    GET (setPtr s p v).mem p = v % 2 ^ 32 := GET_SET_PTR_same _ _ _

theorem GET_setPtr_ne (s : St) (p v a : Nat) (h : a ≠ p) :
    GET (setPtr s p v).mem a = GET s.mem a := GET_SET_PTR_ne _ _ _ _ h

theorem GET_setSegList (s : St) (k p a : Nat) :
    GET (setSegList s k p).mem a = GET s.mem a := rfl

theorem log2_range (s k : Nat) (hs : 1 ≤ s) :
    Nat.log2 s = k ↔ 2 ^ k ≤ s ∧ s < 2 ^ (k + 1) := by
  rw [Nat.log2_eq_log_two]
  constructor
  · rintro rfl
    exact ⟨Nat.pow_log_le_self 2 (by omega), Nat.lt_pow_succ_log_self (by norm_num) s⟩
  · rintro ⟨h1, h2⟩
    exact Nat.log_eq_of_pow_le_of_lt_pow h1 h2

/-! ## Claim theorems -/

/-- C8: for every size `s ≥ 1`, the bucket index computed by the
selection loop shared by `insert_node` and `delete_node` equals
`min 19 (⌊log2 s⌋)`; consequently a size lands in bucket `k < 19` exactly
when `s ∈ [2^k, 2^(k+1))`, and bucket `19` absorbs all sizes `≥ 2^19`. -/
theorem claim_C8 (s : Nat) (hs : 1 ≤ s) :
    (selectLoop 0 s).1 = min 19 (Nat.log2 s) ∧
    (∀ k, k < 19 → ((selectLoop 0 s).1 = k ↔ 2 ^ k ≤ s ∧ s < 2 ^ (k + 1))) ∧
    ((selectLoop 0 s).1 = 19 ↔ 2 ^ 19 ≤ s) := by
  have h0 := selectLoop_fst s 0 (by omega)
  simp only [Nat.zero_add] at h0
  refine ⟨h0, ?_, ?_⟩
  · intro k hk
    rw [h0]
    have hmin : min 19 (Nat.log2 s) = k ↔ Nat.log2 s = k := by omega
    rw [hmin, log2_range s k hs]
  · rw [h0]
    constructor
    · intro h
      have hL : 19 ≤ Nat.log2 s := by omega
      have h2 : 2 ^ Nat.log2 s ≤ s := by
        rw [Nat.log2_eq_log_two]
        exact Nat.pow_log_le_self 2 (by omega)
      calc (2 : Nat) ^ 19 ≤ 2 ^ Nat.log2 s := Nat.pow_le_pow_right (by norm_num) hL
        _ ≤ s := h2
    · intro h
      have h19 : 19 ≤ Nat.log 2 s := (Nat.pow_le_iff_le_log (by norm_num) (by omega)).1 h
      rw [Nat.log2_eq_log_two]
      omega

/-- Witness for C8 at `s = 16`. -/
theorem claim_C8_witness :
    (1 : Nat) ≤ 16 ∧
    ((selectLoop 0 16).1 = min 19 (Nat.log2 16) ∧
      (∀ k, k < 19 → ((selectLoop 0 16).1 = k ↔ 2 ^ k ≤ 16 ∧ 16 < 2 ^ (k + 1))) ∧
      ((selectLoop 0 16).1 = 19 ↔ 2 ^ 19 ≤ 16)) :=
  ⟨by decide, claim_C8 16 (by decide)⟩

/-- C5: `mm_realloc(ptr, 0)` returns `NULL` with the allocator state
untouched: no block is freed, no bucket head changes, no heap word is
written. -/
theorem claim_C5 (fuel : Nat) (s : St) (ptr : Nat) :
    mm_realloc fuel s ptr 0 = some (0, s) := by
  simp [mm_realloc]

/-- C6: when the current block size `avail = GET_SIZE(HDRP(ptr))` is at
least the adjusted request (`2 * DSIZE` or `ALIGN(size + DSIZE)`) plus
`REALLOC_BUFFER`, `mm_realloc(ptr, size)` returns `ptr` with the state
unchanged. -/
theorem claim_C6 (fuel : Nat) (s : St) (ptr size : Nat) (h0 : size ≠ 0)
    (hfit : (if size ≤ DSIZE then 2 * DSIZE else ALIGN (size + DSIZE)) + REALLOC_BUFFER ≤
      GET_SIZE s.mem (HDRP ptr)) :
    mm_realloc fuel s ptr size = some (ptr, s) := by
  rw [mm_realloc, if_neg h0]
  have hnot : ¬ ((GET_SIZE s.mem (HDRP ptr) : Int) -
      (((if size ≤ DSIZE then 2 * DSIZE else ALIGN (size + DSIZE)) + REALLOC_BUFFER : Nat) : Int)
        < 0) := by
    split_ifs at hfit ⊢ <;> (push_cast; omega)
  rw [if_neg hnot]

/-- Witness for C6: a 160-byte block satisfies a request of 1 byte
(adjusted size `16 + 128 = 144 ≤ 160`). -/
theorem claim_C6_witness :
    (1 : Nat) ≠ 0 ∧
    (if (1 : Nat) ≤ DSIZE then 2 * DSIZE else ALIGN (1 + DSIZE)) + REALLOC_BUFFER ≤
      GET_SIZE stRealloc160.mem (HDRP 16) ∧
    mm_realloc 100 stRealloc160 16 1 = some (16, stRealloc160) :=
  ⟨by decide, by decide, claim_C6 100 stRealloc160 16 1 (by decide) (by decide)⟩

/-- C3 (amended): `place(ptr, asize)` does not split when the remainder
`size(ptr) - asize` is at most `16` bytes (code: `remainder <= DSIZE * 2`),
not "less than 32" as claimed: it writes header and footer of the whole
block as `(size(ptr), allocated)` and returns `ptr`. -/
theorem claim_C3 (fuel : Nat) (s : St) (ptr asize : Nat)
    (h16 : 16 ≤ asize) (hal : asize % 8 = 0)
    (hle : asize ≤ GET_SIZE s.mem (HDRP ptr))
    (hrem : GET_SIZE s.mem (HDRP ptr) - asize ≤ 16) :
    ∃ s', place fuel s ptr asize = some (ptr, s') ∧
      GET_SIZE s'.mem (HDRP ptr) = GET_SIZE s.mem (HDRP ptr) ∧
      GET_ALLOC s'.mem (HDRP ptr) = 1 ∧
      GET_SIZE s'.mem (ptr + GET_SIZE s.mem (HDRP ptr) - DSIZE) = GET_SIZE s.mem (HDRP ptr) ∧
      GET_ALLOC s'.mem (ptr + GET_SIZE s.mem (HDRP ptr) - DSIZE) = 1 := by
  have h8 : GET_SIZE s.mem (HDRP ptr) % 8 = 0 := GET_SIZE_mod8 _ _
  have hlt : GET_SIZE s.mem (HDRP ptr) < 2 ^ 32 := GET_SIZE_lt _ _
  simp only [place]
  rw [if_pos (show GET_SIZE s.mem (HDRP ptr) - asize ≤ DSIZE * 2 by simp only [DSIZE]; omega)]
  set P := GET_SIZE s.mem (HDRP ptr) with hP
  have hP16 : 16 ≤ P := le_trans h16 hle
  have hpack : PACK P 1 = P + 1 := PACK_eq h8 (by norm_num)
  set t := delete_node s ptr with ht
  have hhdr2 : GET (putNoTag t (HDRP ptr) (PACK P 1)).mem (HDRP ptr) = P + 1 := by
    rw [putNoTag_mem, GET_PUT_NOTAG_same, hpack, Nat.mod_eq_of_lt (by omega)]
  have hsz2 : GET_SIZE (putNoTag t (HDRP ptr) (PACK P 1)).mem (HDRP ptr) = P := by
    rw [GET_SIZE_eq, hhdr2]; omega
  have hftr : FTRP (putNoTag t (HDRP ptr) (PACK P 1)).mem ptr = ptr + P - DSIZE := by
    rw [FTRP, hsz2]
  rw [hftr]
  have hne : HDRP ptr ≠ ptr + P - DSIZE := by
    simp only [HDRP, WSIZE, DSIZE]; omega
  refine ⟨_, rfl, ?_, ?_, ?_, ?_⟩
  · rw [GET_SIZE_eq, putNoTag_mem, GET_PUT_NOTAG_ne _ _ _ _ hne, hhdr2]
    omega
  · rw [GET_ALLOC_eq, putNoTag_mem, GET_PUT_NOTAG_ne _ _ _ _ hne, hhdr2]
    omega
  · rw [GET_SIZE_eq, putNoTag_mem, GET_PUT_NOTAG_same, hpack]
    omega
  · rw [GET_ALLOC_eq, putNoTag_mem, GET_PUT_NOTAG_same, hpack]
    omega

/-- Counterexample to C3 as stated: in `stBlock72` the free block at `16`
has size `72`; for `asize = 48` the remainder is `24 < 32`, yet `place`
*does* split: the resulting header at `16` reads `(48, allocated)` (not
`(72, allocated)`) and a free block of size `24` appears at `64`. -/
theorem claim_C3_counterexample :
    GET_SIZE stBlock72.mem (HDRP 16) = 72 ∧ (72 : Nat) - 48 < 32 ∧
    (place 100 stBlock72 16 48).map
      (fun r => (r.1, GET_SIZE r.2.mem (HDRP 16), GET_ALLOC r.2.mem (HDRP 16),
        GET_SIZE r.2.mem (HDRP 64), GET_ALLOC r.2.mem (HDRP 64))) =
      some (16, 48, 1, 24, 0) ∧ (48 : Nat) ≠ 72 :=
  ⟨by decide, by decide, by decide, by decide⟩

/-- Witness for C3 (amended) at `stBlock72` with `asize = 56`
(remainder `16`). -/
theorem claim_C3_witness :
    ((16 : Nat) ≤ 56 ∧ (56 : Nat) % 8 = 0 ∧ 56 ≤ GET_SIZE stBlock72.mem (HDRP 16) ∧
      GET_SIZE stBlock72.mem (HDRP 16) - 56 ≤ 16) ∧
    (∃ s', place 100 stBlock72 16 56 = some (16, s') ∧
      GET_SIZE s'.mem (HDRP 16) = GET_SIZE stBlock72.mem (HDRP 16) ∧
      GET_ALLOC s'.mem (HDRP 16) = 1 ∧
      GET_SIZE s'.mem (16 + GET_SIZE stBlock72.mem (HDRP 16) - DSIZE) =
        GET_SIZE stBlock72.mem (HDRP 16) ∧
      GET_ALLOC s'.mem (16 + GET_SIZE stBlock72.mem (HDRP 16) - DSIZE) = 1) :=
  ⟨⟨by decide, by decide, by decide, by decide⟩,
    claim_C3 100 stBlock72 16 56 (by decide) (by decide) (by decide) (by decide)⟩

/-- C4 (amended): for a splittable block (`remainder > 16`), `place` puts
the free remainder first (at the lower address) when `asize ≥ 73` (code:
`asize >= 73`), not `asize ≥ 72` as claimed: it writes `(remainder, free)`
at `ptr`, `(asize, allocated)` at the next physical block, indexes the
remainder, and returns the payload `ptr + remainder` of the second block. -/
theorem claim_C4 (fuel : Nat) (s : St) (ptr asize : Nat)
    (hptr : 4 ≤ ptr) (h73 : 73 ≤ asize) (hal : asize % 8 = 0)
    (hle : asize ≤ GET_SIZE s.mem (HDRP ptr))
    (hsplit : 16 < GET_SIZE s.mem (HDRP ptr) - asize)
    (hpred : PRED s.mem ptr = 0) (hsucc : SUCC s.mem ptr = 0)
    (htarget : s.segregated_free_lists
        ((selectLoop 0 (GET_SIZE s.mem (HDRP ptr) - asize)).1) = 0 ∨
      (selectLoop 0 (GET_SIZE s.mem (HDRP ptr) - asize)).1 =
        (selectLoop 0 (GET_SIZE s.mem (HDRP ptr))).1) :
    ∃ s', place fuel s ptr asize =
        some (ptr + (GET_SIZE s.mem (HDRP ptr) - asize), s') ∧
      GET_SIZE s'.mem (HDRP ptr) = GET_SIZE s.mem (HDRP ptr) - asize ∧
      GET_ALLOC s'.mem (HDRP ptr) = 0 ∧
      GET_SIZE s'.mem (ptr + (GET_SIZE s.mem (HDRP ptr) - asize) - DSIZE) =
        GET_SIZE s.mem (HDRP ptr) - asize ∧
      GET_ALLOC s'.mem (ptr + (GET_SIZE s.mem (HDRP ptr) - asize) - DSIZE) = 0 ∧
      GET_SIZE s'.mem (HDRP (ptr + (GET_SIZE s.mem (HDRP ptr) - asize))) = asize ∧
      GET_ALLOC s'.mem (HDRP (ptr + (GET_SIZE s.mem (HDRP ptr) - asize))) = 1 ∧
      GET_SIZE s'.mem (ptr + (GET_SIZE s.mem (HDRP ptr) - asize) + asize - DSIZE) = asize ∧
      GET_ALLOC s'.mem (ptr + (GET_SIZE s.mem (HDRP ptr) - asize) + asize - DSIZE) = 1 ∧
      s'.segregated_free_lists
        ((selectLoop 0 (GET_SIZE s.mem (HDRP ptr) - asize)).1) = ptr := by
  have h8P : GET_SIZE s.mem (HDRP ptr) % 8 = 0 := GET_SIZE_mod8 _ _
  have hltP : GET_SIZE s.mem (HDRP ptr) < 2 ^ 32 := GET_SIZE_lt _ _
  have hdel : delete_node s ptr =
      setSegList s (selectLoop 0 (GET_SIZE s.mem (HDRP ptr))).1 0 := by
    simp only [delete_node, hpred, hsucc]
    simp
  simp only [place]
  rw [if_neg (show ¬(GET_SIZE s.mem (HDRP ptr) - asize ≤ DSIZE * 2) by
    simp only [DSIZE]; omega), if_pos h73, hdel]
  simp only [FTRP, NEXT_BLKP, HDRP, WSIZE, DSIZE, GET_SIZE_eq, GET_ALLOC_eq] at *
  set P := GET s.mem (ptr - 4) % 2 ^ 32 / 8 * 8 with hPdef
  set A := P - asize with hAdef
  have h8A : A % 8 = 0 := by omega
  have hA24 : 24 ≤ A := by omega
  have hltA : asize < 2 ^ 32 := by omega
  set kP := (selectLoop 0 P).1 with hkP
  set kR := (selectLoop 0 A).1 with hkR
  set s1 := setSegList s kP 0 with hs1
  have hpackA : PACK A 0 = A := by rw [PACK_eq h8A (by norm_num)]; omega
  have hpackAs : PACK asize 1 = asize + 1 := PACK_eq hal (by norm_num)
  -- chain of written-cell values
  have w2 : GET (putNoTag s1 (ptr - 4) (PACK A 0)).mem (ptr - 4) = A := by
    rw [GET_putNoTag_same, hpackA, Nat.mod_eq_of_lt (by omega)]
  have r1 : GET (putNoTag s1 (ptr - 4) (PACK A 0)).mem (ptr - 4) % 2 ^ 32 / 8 * 8 = A := by
    rw [w2]; omega
  rw [r1]
  set s2 := putNoTag s1 (ptr - 4) (PACK A 0) with hs2
  have w3 : GET (putNoTag s2 (ptr + A - 8) (PACK A 0)).mem (ptr - 4) = A := by
    rw [GET_putNoTag_ne _ _ _ _ (by omega), hs2, w2]
  have r2 : GET (putNoTag s2 (ptr + A - 8) (PACK A 0)).mem (ptr - 4) % 2 ^ 32 / 8 * 8 = A := by
    rw [w3]; omega
  rw [r2]
  set s3 := putNoTag s2 (ptr + A - 8) (PACK A 0) with hs3
  have w3f : GET s3.mem (ptr + A - 8) = A := by
    rw [hs3, GET_putNoTag_same, hpackA, Nat.mod_eq_of_lt (by omega)]
  have w4 : GET (putNoTag s3 (ptr + A - 4) (PACK asize 1)).mem (ptr - 4) = A := by
    rw [GET_putNoTag_ne _ _ _ _ (by omega), hs3, w3]
  have r3 : GET (putNoTag s3 (ptr + A - 4) (PACK asize 1)).mem (ptr - 4)
      % 2 ^ 32 / 8 * 8 = A := by
    rw [w4]; omega
  rw [r3]
  have w4n : GET (putNoTag s3 (ptr + A - 4) (PACK asize 1)).mem (ptr + A - 4) = asize + 1 := by
    rw [GET_putNoTag_same, hpackAs, Nat.mod_eq_of_lt (by omega)]
  have r4 : GET (putNoTag s3 (ptr + A - 4) (PACK asize 1)).mem (ptr + A - 4)
      % 2 ^ 32 / 8 * 8 = asize := by
    rw [w4n]; omega
  rw [r4]
  set s4 := putNoTag s3 (ptr + A - 4) (PACK asize 1) with hs4
  set s5 := putNoTag s4 (ptr + A + asize - 8) (PACK asize 1) with hs5
  have w5 : GET s5.mem (ptr - 4) = A := by
    rw [hs5, GET_putNoTag_ne _ _ _ _ (by omega), hs4, w4]
  have w5f : GET s5.mem (ptr + A - 8) = A := by
    rw [hs5, GET_putNoTag_ne _ _ _ _ (by omega), hs4,
      GET_putNoTag_ne _ _ _ _ (by omega), w3f]
  have w5n : GET s5.mem (ptr + A - 4) = asize + 1 := by
    rw [hs5, GET_putNoTag_ne _ _ _ _ (by omega), hs4, w4n]
  have w5nf : GET s5.mem (ptr + A + asize - 8) = asize + 1 := by
    rw [hs5, GET_putNoTag_same, hpackAs, Nat.mod_eq_of_lt (by omega)]
  have hhead : s5.segregated_free_lists kR = 0 := by
    by_cases hkk : kR = kP
    · simp [hs5, hs4, hs3, hs2, putNoTag_lists, hs1, setSegList_lists, hkk]
    · rcases htarget with h | h
      · simp [hs5, hs4, hs3, hs2, putNoTag_lists, hs1, setSegList_lists, hkk, h]
      · exact absurd h hkk
  have hins : insert_node fuel s5 ptr A =
      some (setSegList (setPtr (setPtr s5 (PRED_PTR ptr) 0) (SUCC_PTR ptr) 0) kR ptr) := by
    simp only [insert_node]
    rw [← hkR, hhead, insertWalk.eq_def]
    simp
  rw [hins]
  dsimp only
  set s6 := setSegList (setPtr (setPtr s5 (PRED_PTR ptr) 0) (SUCC_PTR ptr) 0) kR ptr with hs6
  have v6 : GET s6.mem (ptr - 4) = A := by
    rw [hs6, GET_setSegList,
      GET_setPtr_ne _ _ _ _ (by simp only [SUCC_PTR, WSIZE]; omega),
      GET_setPtr_ne _ _ _ _ (by simp only [PRED_PTR]; omega), w5]
  have v6f : GET s6.mem (ptr + A - 8) = A := by
    rw [hs6, GET_setSegList,
      GET_setPtr_ne _ _ _ _ (by simp only [SUCC_PTR, WSIZE]; omega),
      GET_setPtr_ne _ _ _ _ (by simp only [PRED_PTR]; omega), w5f]
  have v6n : GET s6.mem (ptr + A - 4) = asize + 1 := by
    rw [hs6, GET_setSegList,
      GET_setPtr_ne _ _ _ _ (by simp only [SUCC_PTR, WSIZE]; omega),
      GET_setPtr_ne _ _ _ _ (by simp only [PRED_PTR]; omega), w5n]
  have v6nf : GET s6.mem (ptr + A + asize - 8) = asize + 1 := by
    rw [hs6, GET_setSegList,
      GET_setPtr_ne _ _ _ _ (by simp only [SUCC_PTR, WSIZE]; omega),
      GET_setPtr_ne _ _ _ _ (by simp only [PRED_PTR]; omega), w5nf]
  have r6 : GET s6.mem (ptr - 4) % 2 ^ 32 / 8 * 8 = A := by rw [v6]; omega
  rw [r6]
  refine ⟨s6, rfl, ?_, ?_, ?_, ?_, ?_, ?_, ?_, ?_, ?_⟩
  · rw [v6]; omega
  · rw [v6]; omega
  · rw [v6f]; omega
  · rw [v6f]; omega
  · rw [v6n]; omega
  · rw [v6n]; omega
  · rw [v6nf]; omega
  · rw [v6nf]; omega
  · rw [hs6, setSegList_lists, if_pos rfl]


/-- Counterexample to C4 as stated: in `stBlock104` the free block at `16`
has size `104`; for `asize = 72` (exactly the claimed boundary, remainder
`32`) `place` splits with the *allocated block first*: it returns `16`
(not the payload `48` of the second block) and the header at `16` reads
`(72, allocated)` rather than `(32, free)`. -/
theorem claim_C4_counterexample :
    GET_SIZE stBlock104.mem (HDRP 16) - 72 = 32 ∧
    (place 100 stBlock104 16 72).map
      (fun r => (r.1, GET_SIZE r.2.mem (HDRP 16), GET_ALLOC r.2.mem (HDRP 16))) =
      some (16, 72, 1) ∧ (16 : Nat) ≠ 48 :=
  ⟨by decide, by decide, by decide⟩

/-- Witness for C4 (amended) at `stBlock104` with `asize = 80`
(remainder `24`). -/
theorem claim_C4_witness :
    ((4 : Nat) ≤ 16 ∧ (73 : Nat) ≤ 80 ∧ (80 : Nat) % 8 = 0 ∧
      80 ≤ GET_SIZE stBlock104.mem (HDRP 16) ∧
      16 < GET_SIZE stBlock104.mem (HDRP 16) - 80 ∧
      PRED stBlock104.mem 16 = 0 ∧ SUCC stBlock104.mem 16 = 0) ∧
    (∃ s', place 100 stBlock104 16 80 =
        some (16 + (GET_SIZE stBlock104.mem (HDRP 16) - 80), s') ∧
      GET_SIZE s'.mem (HDRP 16) = GET_SIZE stBlock104.mem (HDRP 16) - 80 ∧
      GET_ALLOC s'.mem (HDRP 16) = 0 ∧
      GET_SIZE s'.mem (16 + (GET_SIZE stBlock104.mem (HDRP 16) - 80) - DSIZE) =
        GET_SIZE stBlock104.mem (HDRP 16) - 80 ∧
      GET_ALLOC s'.mem (16 + (GET_SIZE stBlock104.mem (HDRP 16) - 80) - DSIZE) = 0 ∧
      GET_SIZE s'.mem (HDRP (16 + (GET_SIZE stBlock104.mem (HDRP 16) - 80))) = 80 ∧
      GET_ALLOC s'.mem (HDRP (16 + (GET_SIZE stBlock104.mem (HDRP 16) - 80))) = 1 ∧
      GET_SIZE s'.mem (16 + (GET_SIZE stBlock104.mem (HDRP 16) - 80) + 80 - DSIZE) = 80 ∧
      GET_ALLOC s'.mem (16 + (GET_SIZE stBlock104.mem (HDRP 16) - 80) + 80 - DSIZE) = 1 ∧
      s'.segregated_free_lists
        ((selectLoop 0 (GET_SIZE stBlock104.mem (HDRP 16) - 80)).1) = 16) :=
  ⟨⟨by decide, by decide, by decide, by decide, by decide, by decide, by decide⟩,
    claim_C4 100 stBlock104 16 80 (by decide) (by decide) (by decide) (by decide)
      (by decide) (by decide) (by decide) (Or.inl (by decide))⟩

theorem chainLinks_head (m : Mem) (l : List Nat) (p : Nat) (hc : chainLinks m p l) :
    p = l.getD 0 0 := by
  cases l with
  | nil => simpa [chainLinks] using hc
  | cons q rest => simpa using hc.1

theorem chainLinks_getD_ne (m : Mem) :
    ∀ (l : List Nat) (p : Nat), chainLinks m p l → ∀ j < l.length, l.getD j 0 ≠ 0 := by
  intro l
  induction l with
  | nil => intro p _ j hj; simp at hj
  | cons q rest ih =>
    intro p hc j hj
    obtain ⟨-, hq0, hrest⟩ := hc
    cases j with
    | zero => simpa using hq0
    | succ j => simpa using ih (PRED m q) hrest j (by simpa using hj)

theorem chainLinks_getD_pred (m : Mem) :
    ∀ (l : List Nat) (p : Nat), chainLinks m p l →
      ∀ j < l.length, PRED m (l.getD j 0) = l.getD (j + 1) 0 := by
  intro l
  induction l with
  | nil => intro p _ j hj; simp at hj
  | cons q rest ih =>
    intro p hc j hj
    obtain ⟨-, -, hrest⟩ := hc
    cases j with
    | zero =>
      simp only [List.getD_cons_zero, List.getD_cons_succ]
      exact chainLinks_head m rest (PRED m q) hrest
    | succ j => simpa using ih (PRED m q) hrest j (by simpa using hj)

theorem succOk_head (m : Mem) (l : List Nat) (ab : Option Nat) (hs : succOk m ab l)
    (hl : 0 < l.length) : SUCC m (l.getD 0 0) = ab.getD 0 := by
  cases l with
  | nil => simp at hl
  | cons q rest => simpa using hs.1

theorem succOk_getD (m : Mem) :
    ∀ (l : List Nat) (ab : Option Nat), succOk m ab l →
      ∀ j, j + 1 < l.length → SUCC m (l.getD (j + 1) 0) = l.getD j 0 := by
  intro l
  induction l with
  | nil => intro ab _ j hj; simp at hj
  | cons q rest ih =>
    intro ab hs j hj
    obtain ⟨-, hrest⟩ := hs
    cases j with
    | zero =>
      simp only [List.getD_cons_zero, List.getD_cons_succ]
      simpa using succOk_head m rest (some q) hrest (by simpa using hj)
    | succ j => simpa using ih (some q) hrest j (by simpa using hj)

theorem insertWalk_result (m : Mem) (sz : Nat) :
    ∀ (l : List Nat) (fuel p prev : Nat), chainLinks m p l → l.length ≤ fuel →
      ∃ i, i ≤ l.length ∧
        insertWalk m sz fuel p prev =
          some (l.getD i 0, if i = 0 then prev else l.getD (i - 1) 0) := by
  intro l
  induction l with
  | nil =>
    intro fuel p prev hc _
    have hp : p = 0 := by simpa [chainLinks] using hc
    subst hp
    refine ⟨0, Nat.le_refl _, ?_⟩
    rw [insertWalk.eq_def]
    dsimp only
    simp
  | cons q rest ih =>
    intro fuel p prev hc hf
    obtain ⟨hpq, hq0, hrest⟩ := hc
    subst hpq
    by_cases hcond : p ≠ 0 ∧ GET_SIZE m (HDRP p) < sz
    · cases fuel with
      | zero => simp at hf
      | succ f =>
        rw [insertWalk.eq_def]
        dsimp only
        rw [if_pos hcond]
        obtain ⟨i, hi, heq⟩ := ih f (PRED m p) p hrest (by simpa using hf)
        refine ⟨i + 1, by simpa using hi, ?_⟩
        rw [heq]
        cases i with
        | zero => simp
        | succ i => simp
    · refine ⟨0, Nat.zero_le _, ?_⟩
      rw [insertWalk.eq_def]
      dsimp only
      rw [if_neg hcond]
      simp

/-- C9 at its failing input (code bug): bucket `4` of `stBucket16` is the
well-formed singleton chain `[32]` (block size 16, trivially ascending).
`insert_node` of block `64` (size 24, same bucket) nevertheless inserts at
the head: the resulting chain walked via `PRED` is `64, 32` with sizes
`24, 16` -- descending, because the walk compares the bucket-shifted size
`(selectLoop 0 24).2 = 1`, never the block size `24`, against `16`. -/
theorem claim_C9 :
    stBucket16.segregated_free_lists 4 = 32 ∧
    GET_SIZE stBucket16.mem (HDRP 32) = 16 ∧ PRED stBucket16.mem 32 = 0 ∧
    SUCC stBucket16.mem 32 = 0 ∧
    GET_SIZE stBucket16.mem (HDRP 64) = 24 ∧ (selectLoop 0 24).1 = 4 ∧
    (insert_node 100 stBucket16 64 24).map
      (fun s' => (s'.segregated_free_lists 4, PRED s'.mem 64, SUCC s'.mem 64,
        GET_SIZE s'.mem (HDRP 64), GET_SIZE s'.mem (HDRP 32))) =
      some (64, 32, 0, 24, 16) ∧
    ¬ (24 : Nat) ≤ 16 :=
  ⟨by decide, by decide, by decide, by decide, by decide, by decide, by decide, by decide⟩

/-- C10: inserting a block `ptr` that is in no bucket list with
`insert_node(ptr, size(ptr))` and immediately deleting it with
`delete_node(ptr)` restores every bucket head and every `PRED`/`SUCC` link
of the previously listed blocks (only the two link words of `ptr` itself
may be left dirty), in all four link cases of the insertion.  The bucket
list is described by `chainLinks`/`succOk` and the cell-disjointness
`cellsOk` that any well-formed heap provides. -/
theorem claim_C10 (fuel : Nat) (s : St) (ptr : Nat) (l : List Nat)
    (hptr0 : ptr ≠ 0)
    (hchain : chainLinks s.mem
      (s.segregated_free_lists ((selectLoop 0 (GET_SIZE s.mem (HDRP ptr))).1)) l)
    (hso : succOk s.mem none l)
    (hcells : cellsOk ptr l)
    (hfuel : l.length ≤ fuel) :
    ∃ s', insert_node fuel s ptr (GET_SIZE s.mem (HDRP ptr)) = some s' ∧
      (delete_node s' ptr).segregated_free_lists = s.segregated_free_lists ∧
      ∀ a, a ≠ PRED_PTR ptr → a ≠ SUCC_PTR ptr →
        GET (delete_node s' ptr).mem a = GET s.mem a := by
  obtain ⟨hcell, hpair⟩ := hcells
  obtain ⟨i, hi, hwalk⟩ := insertWalk_result s.mem
    (selectLoop 0 (GET_SIZE s.mem (HDRP ptr))).2 l fuel
    (s.segregated_free_lists ((selectLoop 0 (GET_SIZE s.mem (HDRP ptr))).1)) 0 hchain hfuel
  have hhead := chainLinks_head _ _ _ hchain
  simp only [insert_node]
  rw [hwalk]
  dsimp only
  by_cases hn : l.length = 0
  · -- Case A: the bucket is empty
    obtain rfl : l = [] := List.length_eq_zero.mp hn
    have hi0 : i = 0 := by omega
    subst hi0
    simp only [List.getD]
    rw [if_neg (by simp)]
    refine ⟨_, rfl, ?_, ?_⟩
    · -- bucket heads restored
      have hsz : GET_SIZE (setSegList (setPtr (setPtr s (PRED_PTR ptr) 0)
          (SUCC_PTR ptr) 0) ((selectLoop 0 (GET_SIZE s.mem (HDRP ptr))).1) ptr).mem
          (HDRP ptr) = GET_SIZE s.mem (HDRP ptr) := by
        rw [GET_SIZE_eq, GET_setSegList,
          GET_setPtr_ne _ _ _ _ (by simp only [SUCC_PTR, WSIZE, HDRP]; omega),
          GET_setPtr_ne _ _ _ _ (by simp only [PRED_PTR, HDRP, WSIZE]; omega),
          ← GET_SIZE_eq]
      have hpredz : PRED (setSegList (setPtr (setPtr s (PRED_PTR ptr) 0)
          (SUCC_PTR ptr) 0) ((selectLoop 0 (GET_SIZE s.mem (HDRP ptr))).1) ptr).mem ptr = 0 := by
        rw [PRED, GET_setSegList,
          GET_setPtr_ne _ _ _ _ (by simp only [PRED_PTR, SUCC_PTR, WSIZE]; omega),
          PRED_PTR, GET_setPtr_same]
        simp
      have hsuccz : SUCC (setSegList (setPtr (setPtr s (PRED_PTR ptr) 0)
          (SUCC_PTR ptr) 0) ((selectLoop 0 (GET_SIZE s.mem (HDRP ptr))).1) ptr).mem ptr = 0 := by
        rw [SUCC, GET_setSegList, GET_setPtr_same]
        simp
      simp only [delete_node, hpredz, hsuccz, hsz]
      simp only [ne_eq, not_true_eq_false, if_false, ite_self]
      funext x
      simp only [setSegList_lists, setPtr_lists]
      by_cases hx : x = (selectLoop 0 (GET_SIZE s.mem (HDRP ptr))).1
      · rw [if_pos hx, hx, hhead]
        simp
      · rw [if_neg hx, if_neg hx]
    · -- heap cells restored
      intro a ha1 ha2
      have hsz : GET_SIZE (setSegList (setPtr (setPtr s (PRED_PTR ptr) 0)
          (SUCC_PTR ptr) 0) ((selectLoop 0 (GET_SIZE s.mem (HDRP ptr))).1) ptr).mem
          (HDRP ptr) = GET_SIZE s.mem (HDRP ptr) := by
        rw [GET_SIZE_eq, GET_setSegList,
          GET_setPtr_ne _ _ _ _ (by simp only [SUCC_PTR, WSIZE, HDRP]; omega),
          GET_setPtr_ne _ _ _ _ (by simp only [PRED_PTR, HDRP, WSIZE]; omega),
          ← GET_SIZE_eq]
      have hpredz : PRED (setSegList (setPtr (setPtr s (PRED_PTR ptr) 0)
          (SUCC_PTR ptr) 0) ((selectLoop 0 (GET_SIZE s.mem (HDRP ptr))).1) ptr).mem ptr = 0 := by
        rw [PRED, GET_setSegList,
          GET_setPtr_ne _ _ _ _ (by simp only [PRED_PTR, SUCC_PTR, WSIZE]; omega),
          PRED_PTR, GET_setPtr_same]
        simp
      have hsuccz : SUCC (setSegList (setPtr (setPtr s (PRED_PTR ptr) 0)
          (SUCC_PTR ptr) 0) ((selectLoop 0 (GET_SIZE s.mem (HDRP ptr))).1) ptr).mem ptr = 0 := by
        rw [SUCC, GET_setSegList, GET_setPtr_same]
        simp
      simp only [delete_node, hpredz, hsuccz, hsz]
      simp only [ne_eq, not_true_eq_false, if_false, ite_self]
      rw [GET_setSegList, GET_setSegList,
        GET_setPtr_ne _ _ _ _ ha2, GET_setPtr_ne _ _ _ _ ha1]
  · -- the bucket is nonempty
    have hmemj : ∀ j, j < l.length → l.getD j 0 ∈ l := by
      intro j hj
      rw [List.getD_eq_getElem l 0 hj]
      exact List.getElem_mem _
    have hcell' : ∀ q ∈ l, q ≠ ptr - 4 ∧ q ≠ ptr ∧ q ≠ ptr + 4 ∧
        q + 4 ≠ ptr - 4 ∧ q + 4 ≠ ptr ∧ q + 4 ≠ ptr + 4 ∧ q < 2 ^ 32 := by
      intro q hq
      obtain ⟨h1, h2, h3⟩ := hcell q hq
      simp only [List.mem_cons, List.not_mem_nil, not_or, or_false] at h1 h2
      exact ⟨h1.1, h1.2.1, h1.2.2, h2.1, h2.2.1, h2.2.2, h3⟩
    by_cases hi0 : i = 0
    · -- Case B: insertion at the bucket head
      subst hi0
      have hlen : 0 < l.length := by omega
      have hnd0 : l.getD 0 0 ≠ 0 := chainLinks_getD_ne s.mem l _ hchain 0 hlen
      obtain ⟨c1, c2, c3, c4, c5, c6, c7⟩ := hcell' _ (hmemj 0 hlen)
      rw [if_pos hnd0]
      rw [if_neg (by simp)]
      have hszB : GET_SIZE (setSegList (setPtr (setPtr (setPtr s (PRED_PTR ptr)
          (l.getD 0 0)) (SUCC_PTR (l.getD 0 0)) ptr) (SUCC_PTR ptr) 0)
          ((selectLoop 0 (GET_SIZE s.mem (HDRP ptr))).1) ptr).mem (HDRP ptr) =
          GET_SIZE s.mem (HDRP ptr) := by
        rw [GET_SIZE_eq, GET_setSegList,
          GET_setPtr_ne _ _ _ _ (by simp only [SUCC_PTR, WSIZE, HDRP]; omega),
          GET_setPtr_ne _ _ _ _ (by simp only [SUCC_PTR, WSIZE, HDRP]; omega),
          GET_setPtr_ne _ _ _ _ (by simp only [PRED_PTR, HDRP, WSIZE]; omega),
          ← GET_SIZE_eq]
      have hpredB : PRED (setSegList (setPtr (setPtr (setPtr s (PRED_PTR ptr)
          (l.getD 0 0)) (SUCC_PTR (l.getD 0 0)) ptr) (SUCC_PTR ptr) 0)
          ((selectLoop 0 (GET_SIZE s.mem (HDRP ptr))).1) ptr).mem ptr = l.getD 0 0 := by
        rw [PRED, GET_setSegList,
          GET_setPtr_ne _ _ _ _ (by simp only [PRED_PTR, SUCC_PTR, WSIZE]; omega),
          GET_setPtr_ne _ _ _ _ (by simp only [PRED_PTR, SUCC_PTR, WSIZE]; omega),
          PRED_PTR, GET_setPtr_same, Nat.mod_eq_of_lt c7]
      have hsuccB : SUCC (setSegList (setPtr (setPtr (setPtr s (PRED_PTR ptr)
          (l.getD 0 0)) (SUCC_PTR (l.getD 0 0)) ptr) (SUCC_PTR ptr) 0)
          ((selectLoop 0 (GET_SIZE s.mem (HDRP ptr))).1) ptr).mem ptr = 0 := by
        rw [SUCC, GET_setSegList, GET_setPtr_same]
        simp
      have hpredB2 : PRED (setPtr (setSegList (setPtr (setPtr (setPtr s (PRED_PTR ptr)
          (l.getD 0 0)) (SUCC_PTR (l.getD 0 0)) ptr) (SUCC_PTR ptr) 0)
          ((selectLoop 0 (GET_SIZE s.mem (HDRP ptr))).1) ptr)
          (SUCC_PTR (l.getD 0 0)) 0).mem ptr = l.getD 0 0 := by
        have hB := hpredB
        rw [PRED, PRED_PTR] at hB ⊢
        rw [GET_setPtr_ne _ _ _ _ (by simp only [SUCC_PTR, WSIZE]; omega), hB]
      have hsucc0 : GET s.mem (SUCC_PTR (l.getD 0 0)) = 0 := by
        have h0 := succOk_head s.mem l none hso hlen
        rw [SUCC] at h0
        simpa using h0
      refine ⟨_, rfl, ?_, ?_⟩
      · simp only [delete_node, hpredB, hsuccB, hszB]
        rw [if_pos hnd0]
        simp only [ne_eq, not_true_eq_false, if_false]
        rw [hpredB2]
        funext x
        simp only [setSegList_lists, setPtr_lists]
        by_cases hx : x = (selectLoop 0 (GET_SIZE s.mem (HDRP ptr))).1
        · rw [if_pos hx, hx, hhead]
        · rw [if_neg hx, if_neg hx]
      · simp only [delete_node, hpredB, hsuccB, hszB]
        rw [if_pos hnd0]
        simp only [ne_eq, not_true_eq_false, if_false]
        intro a ha1 ha2
        rw [GET_setSegList]
        by_cases hb : a = SUCC_PTR (l.getD 0 0)
        · rw [hb, GET_setPtr_same, hsucc0]
          norm_num
        · rw [GET_setPtr_ne _ _ _ _ hb, GET_setSegList,
            GET_setPtr_ne _ _ _ _ ha2, GET_setPtr_ne _ _ _ _ hb,
            GET_setPtr_ne _ _ _ _ ha1]
    · -- i ≥ 1: the walk advanced; the inserted position has a predecessor
      have hi1 : 1 ≤ i := by omega
      have hndi1 : l.getD (i - 1) 0 ≠ 0 :=
        chainLinks_getD_ne s.mem l _ hchain (i - 1) (by omega)
      obtain ⟨d1, d2, d3, d4, d5, d6, d7⟩ := hcell' _ (hmemj (i - 1) (by omega))
      have hpred1 : PRED s.mem (l.getD (i - 1) 0) = l.getD i 0 := by
        have h := chainLinks_getD_pred s.mem l _ hchain (i - 1) (by omega)
        rwa [show i - 1 + 1 = i by omega] at h
      rw [if_neg hi0]
      by_cases hin : i = l.length
      · -- Case D: insertion at the tail
        have hget0 : l.getD i 0 = 0 := by
          rw [List.getD_eq_default]
          omega
        rw [hget0]
        rw [if_neg (by simp)]
        rw [if_pos hndi1]
        have hszD : GET_SIZE (setPtr (setPtr (setPtr s (PRED_PTR ptr) 0)
            (SUCC_PTR ptr) (l.getD (i - 1) 0)) (PRED_PTR (l.getD (i - 1) 0)) ptr).mem
            (HDRP ptr) = GET_SIZE s.mem (HDRP ptr) := by
          rw [GET_SIZE_eq,
            GET_setPtr_ne _ _ _ _ (by simp only [PRED_PTR, HDRP, WSIZE]; omega),
            GET_setPtr_ne _ _ _ _ (by simp only [SUCC_PTR, HDRP, WSIZE]; omega),
            GET_setPtr_ne _ _ _ _ (by simp only [PRED_PTR, HDRP, WSIZE]; omega),
            ← GET_SIZE_eq]
        have hpredD : PRED (setPtr (setPtr (setPtr s (PRED_PTR ptr) 0)
            (SUCC_PTR ptr) (l.getD (i - 1) 0)) (PRED_PTR (l.getD (i - 1) 0)) ptr).mem
            ptr = 0 := by
          rw [PRED, PRED_PTR,
            GET_setPtr_ne _ _ _ _ (by simp only [PRED_PTR]; omega),
            GET_setPtr_ne _ _ _ _ (by simp only [SUCC_PTR, WSIZE]; omega),
            GET_setPtr_same]
          norm_num
        have hsuccD : SUCC (setPtr (setPtr (setPtr s (PRED_PTR ptr) 0)
            (SUCC_PTR ptr) (l.getD (i - 1) 0)) (PRED_PTR (l.getD (i - 1) 0)) ptr).mem
            ptr = l.getD (i - 1) 0 := by
          rw [SUCC, SUCC_PTR,
            GET_setPtr_ne _ _ _ _ (by simp only [PRED_PTR, WSIZE]; omega)]
          rw [show ptr + WSIZE = SUCC_PTR ptr from rfl, GET_setPtr_same,
            Nat.mod_eq_of_lt d7]
        refine ⟨_, rfl, ?_, ?_⟩
        · simp only [delete_node, hpredD, hsuccD, hszD]
          simp only [ne_eq, not_true_eq_false, if_false, not_false_eq_true, if_true, ite_self]
          rw [if_pos hndi1]
          funext x
          simp only [setPtr_lists]
        · simp only [delete_node, hpredD, hsuccD, hszD]
          simp only [ne_eq, not_true_eq_false, if_false, not_false_eq_true, if_true, ite_self]
          rw [if_pos hndi1]
          intro a ha1 ha2
          by_cases hb : a = PRED_PTR (l.getD (i - 1) 0)
          · rw [hb, GET_setPtr_same]
            have h0 := hpred1
            rw [PRED, hget0] at h0
            dsimp only [PRED_PTR] at h0 ⊢
            omega
          · rw [GET_setPtr_ne _ _ _ _ hb, GET_setPtr_ne _ _ _ _ hb,
              GET_setPtr_ne _ _ _ _ ha2, GET_setPtr_ne _ _ _ _ ha1]
      · -- Case C: insertion in the middle
        have hiln : i < l.length := by omega
        have hndi : l.getD i 0 ≠ 0 := chainLinks_getD_ne s.mem l _ hchain i hiln
        obtain ⟨e1, e2, e3, e4, e5, e6, e7⟩ := hcell' _ (hmemj i hiln)
        have hsucc1 : SUCC s.mem (l.getD i 0) = l.getD (i - 1) 0 := by
          have h := succOk_getD s.mem l none hso (i - 1) (by omega)
          rwa [show i - 1 + 1 = i by omega] at h
        have hpairC : l.getD (i - 1) 0 ≠ l.getD i 0 + 4 ∧
            l.getD i 0 ≠ l.getD (i - 1) 0 + 4 := by
          have h := List.pairwise_iff_getElem.mp hpair (i - 1) i (by omega) (by omega)
            (by omega)
          rwa [← List.getD_eq_getElem l 0 (show i - 1 < l.length by omega),
            ← List.getD_eq_getElem l 0 hiln] at h
        obtain ⟨pc1, pc2⟩ := hpairC
        rw [if_pos hndi, if_pos hndi1]
        have hszC : GET_SIZE (setPtr (setPtr (setPtr (setPtr s (PRED_PTR ptr)
            (l.getD i 0)) (SUCC_PTR (l.getD i 0)) ptr) (SUCC_PTR ptr) (l.getD (i - 1) 0))
            (PRED_PTR (l.getD (i - 1) 0)) ptr).mem (HDRP ptr) =
            GET_SIZE s.mem (HDRP ptr) := by
          rw [GET_SIZE_eq,
            GET_setPtr_ne _ _ _ _ (by simp only [PRED_PTR, HDRP, WSIZE]; omega),
            GET_setPtr_ne _ _ _ _ (by simp only [SUCC_PTR, HDRP, WSIZE]; omega),
            GET_setPtr_ne _ _ _ _ (by simp only [SUCC_PTR, HDRP, WSIZE]; omega),
            GET_setPtr_ne _ _ _ _ (by simp only [PRED_PTR, HDRP, WSIZE]; omega),
            ← GET_SIZE_eq]
        have hpredC : PRED (setPtr (setPtr (setPtr (setPtr s (PRED_PTR ptr)
            (l.getD i 0)) (SUCC_PTR (l.getD i 0)) ptr) (SUCC_PTR ptr) (l.getD (i - 1) 0))
            (PRED_PTR (l.getD (i - 1) 0)) ptr).mem ptr = l.getD i 0 := by
          rw [PRED, PRED_PTR,
            GET_setPtr_ne _ _ _ _ (by simp only [PRED_PTR]; omega),
            GET_setPtr_ne _ _ _ _ (by simp only [SUCC_PTR, WSIZE]; omega),
            GET_setPtr_ne _ _ _ _ (by simp only [SUCC_PTR, WSIZE]; omega)]
          rw [show (ptr : Nat) = PRED_PTR ptr from rfl, GET_setPtr_same,
            Nat.mod_eq_of_lt e7]
        have n1 : SUCC_PTR ptr ≠ PRED_PTR (l.getD (i - 1) 0) := by
          simp only [PRED_PTR, SUCC_PTR, WSIZE]
          omega
        have hsuccC : SUCC (setPtr (setPtr (setPtr (setPtr s (PRED_PTR ptr)
            (l.getD i 0)) (SUCC_PTR (l.getD i 0)) ptr) (SUCC_PTR ptr) (l.getD (i - 1) 0))
            (PRED_PTR (l.getD (i - 1) 0)) ptr).mem ptr = l.getD (i - 1) 0 := by
          rw [SUCC, GET_setPtr_ne _ _ _ _ n1, GET_setPtr_same, Nat.mod_eq_of_lt d7]
        have hpredC2 : PRED (setPtr (setPtr (setPtr (setPtr (setPtr s (PRED_PTR ptr)
            (l.getD i 0)) (SUCC_PTR (l.getD i 0)) ptr) (SUCC_PTR ptr) (l.getD (i - 1) 0))
            (PRED_PTR (l.getD (i - 1) 0)) ptr) (SUCC_PTR (l.getD i 0))
            (l.getD (i - 1) 0)).mem ptr = l.getD i 0 := by
          have hC := hpredC
          rw [PRED, PRED_PTR] at hC ⊢
          rw [GET_setPtr_ne _ _ _ _ (by simp only [SUCC_PTR, WSIZE]; omega), hC]
        have hsuccC2 : SUCC (setPtr (setPtr (setPtr (setPtr (setPtr s (PRED_PTR ptr)
            (l.getD i 0)) (SUCC_PTR (l.getD i 0)) ptr) (SUCC_PTR ptr) (l.getD (i - 1) 0))
            (PRED_PTR (l.getD (i - 1) 0)) ptr) (SUCC_PTR (l.getD i 0))
            (l.getD (i - 1) 0)).mem ptr = l.getD (i - 1) 0 := by
          have hC := hsuccC
          rw [SUCC] at hC ⊢
          rw [GET_setPtr_ne _ _ _ _ (by simp only [SUCC_PTR, WSIZE]; omega), hC]
        refine ⟨_, rfl, ?_, ?_⟩
        · simp only [delete_node, hpredC, hsuccC, hszC, hpredC2, hsuccC2]
          rw [if_pos hndi, if_pos hndi1]
          funext x
          simp only [setPtr_lists]
        · simp only [delete_node, hpredC, hsuccC, hszC, hpredC2, hsuccC2]
          rw [if_pos hndi, if_pos hndi1]
          intro a ha1 ha2
          by_cases hb : a = PRED_PTR (l.getD (i - 1) 0)
          · rw [hb, GET_setPtr_same]
            have h0 := hpred1
            rw [PRED] at h0
            dsimp only [PRED_PTR] at h0 ⊢
            rw [h0, Nat.mod_eq_of_lt e7]
          · by_cases hb2 : a = SUCC_PTR (l.getD i 0)
            · rw [GET_setPtr_ne _ _ _ _ hb, hb2, GET_setPtr_same]
              have h0 := hsucc1
              rw [SUCC] at h0
              rw [h0, Nat.mod_eq_of_lt d7]
            · rw [GET_setPtr_ne _ _ _ _ hb, GET_setPtr_ne _ _ _ _ hb2,
                GET_setPtr_ne _ _ _ _ hb, GET_setPtr_ne _ _ _ _ ha2,
                GET_setPtr_ne _ _ _ _ hb2, GET_setPtr_ne _ _ _ _ ha1]

/-- Witness for C10 on `stBucket16`: bucket 4 holds the chain `[32]` and
the unlisted block `64` (size 24) is inserted and deleted. -/
theorem claim_C10_witness :
    ((64 : Nat) ≠ 0 ∧
      chainLinks stBucket16.mem
        (stBucket16.segregated_free_lists
          ((selectLoop 0 (GET_SIZE stBucket16.mem (HDRP 64))).1)) [32] ∧
      succOk stBucket16.mem none [32] ∧ cellsOk 64 [32] ∧ [32].length ≤ 100) ∧
    (∃ s', insert_node 100 stBucket16 64 (GET_SIZE stBucket16.mem (HDRP 64)) = some s' ∧
      (delete_node s' 64).segregated_free_lists = stBucket16.segregated_free_lists ∧
      ∀ a, a ≠ PRED_PTR 64 → a ≠ SUCC_PTR 64 →
        GET (delete_node s' 64).mem a = GET stBucket16.mem a) := by
  have hchain : chainLinks stBucket16.mem
      (stBucket16.segregated_free_lists
        ((selectLoop 0 (GET_SIZE stBucket16.mem (HDRP 64))).1)) [32] :=
    ⟨by decide, by decide, show PRED stBucket16.mem 32 = 0 by decide⟩
  have hso : succOk stBucket16.mem none [32] :=
    ⟨show SUCC stBucket16.mem 32 = 0 by decide, trivial⟩
  have hcells : cellsOk 64 [32] := by
    constructor
    · intro q hq
      simp only [List.mem_singleton] at hq
      subst hq
      refine ⟨by decide, by decide, by decide⟩
    · simp
  exact ⟨⟨by decide, hchain, hso, hcells, by decide⟩,
    claim_C10 100 stBucket16 64 [32] (by decide) hchain hso hcells (by decide)⟩

end MM
